import Mathlib

/-!
Verification of the AstraNotes startup composition root
(`src-tauri/src/main.rs` and `src-tauri/src/lib.rs`).

The embedding works at the level of lines: an embedded configuration text is
a `List (List Char)` (Rust's `include_str!(...).lines()` splits the blob into
lines before any claim-relevant processing happens, so the line splitting
itself carries no content here).

Rust string operations used by `main.rs` are embedded on `List Char`:
  * `str::starts_with`   → `List.isPrefixOf`
  * `str::split('=')`    → `splitOnChar '='` (Rust's `split` on a char
                           pattern: never empty, keeps empty segments)
  * `Iterator::nth(1)`   → `·[1]?`
  * `str::trim`          → `trimChars` (the values in play are ASCII, where
                           Rust's Unicode `char::is_whitespace` and Lean's
                           `Char.isWhitespace` agree)
  * `str::trim_matches('"')` → `trimMatchesChar '"'` — note this removes
                           *all* leading and trailing occurrences, not one pair.
-/

/-- Embedding of Rust `str::trim`: strip whitespace from both ends. -/
def trimChars (l : List Char) : List Char :=
  ((l.dropWhile Char.isWhitespace).reverse.dropWhile Char.isWhitespace).reverse

/-- Embedding of Rust `str::trim_matches(q)` for a `Char` pattern: remove
every leading and every trailing occurrence of `q` (matched or not). -/
def trimMatchesChar (q : Char) (l : List Char) : List Char :=
  ((l.dropWhile (fun c => c = q)).reverse.dropWhile (fun c => c = q)).reverse

/-- Embedding of Rust `str::split(sep)` for a `Char` separator: the list of
segments, empty segments kept, never the empty list. -/
def splitOnChar (sep : Char) : List Char → List (List Char)
  | [] => [[]]
  | c :: rest =>
    match splitOnChar sep rest with
    | [] => [[c]]
    | s :: ss => if c = sep then [] :: s :: ss else (c :: s) :: ss

/-- The key prefix `main.rs` searches for, `'='` included, as in
`line.starts_with("SENTRY_TAURI=")`. -/
def sentryPrefix : List Char := "SENTRY_TAURI=".toList

/-- The key name without the `'='`. -/
def sentryKeyName : List Char := "SENTRY_TAURI".toList

/-- Embedding of the DSN extraction in `main.rs`:
```
include_str!("../../.env").lines()
    .find(|line| line.starts_with("SENTRY_TAURI="))
    .and_then(|line| line.split('=').nth(1))
    .map(|value| value.trim())
    .map(|value| value.trim_matches('"'))
```
`none` is the case where the subsequent `.expect(...)` panics. -/
def extractDsn (cfg : List (List Char)) : Option (List Char) :=
  (((cfg.find? (fun line => sentryPrefix.isPrefixOf line)).bind
      (fun line => (splitOnChar '=' line)[1]?)).map
    (fun v => trimChars v)).map
    (fun v => trimMatchesChar '"' v)

example : extractDsn ["SENTRY_TAURI=\"abc\"".toList] = some "abc".toList := by decide
example : extractDsn ["SENTRY_TAURI=abc".toList] = some "abc".toList := by decide
example : extractDsn ["OTHER=1".toList] = none := by decide
example : extractDsn ["SENTRY_TAURI=a=b".toList] = some "a".toList := by decide
example : extractDsn ["SENTRY_TAURI= x ".toList] = some "x".toList := by decide
example : extractDsn ["SENTRY_TAURI=\"\"a\"\"".toList] = some "a".toList := by decide

/-!
The runtime side (`lib.rs` plus the tail of `main`).

External collaborators (the Tauri builder/runtime, the sentry client, the
six plugin crates and the log plugin) are not part of this repository; they
are modelled through their interface contracts, exactly as the composition
root consumes them:

  * each registered plugin is a `PluginId` together with an init behaviour
    `AppContext → Except String AppContext` supplied as a parameter (the
    uniform `init(context) -> Result<(), Error>` contract);
  * `Builder::run(ctx)` initializes the registered plugins in registration
    order, stops at the first failure, then invokes the setup hook, then
    enters the event loop; any error is returned from `run`;
  * `sentry::init` is recorded as an event carrying the DSN and release
    name; the returned guard is a scope-bound value: `main.rs` binds it to
    `_guard` (a named binding, not `_`), so Rust drops it when `main`'s
    scope ends — after `app_lib::run()` has returned or, on a panic
    propagating out of it, during the unwind that precedes process exit.
    The drop is the `guardDrop` event appended at the end of the trace.

`debug_assertions` is the build-profile flag (`cfg!(debug_assertions)`);
`dotenv::dotenv().ok()` only populates process environment variables that
nothing later reads, so it produces no event.
-/

/-- The capability plugins registered in `lib.rs`, in program order. -/
inductive PluginId
  | shell
  | process
  | dialog
  | fs
  | http
  | updater
  | theme
  deriving DecidableEq, Repr

/-- Build-time shared state handed to plugin init (e.g. the theme plugin
mutates the config it is handed); recorded as the list of mutations. -/
structure AppContext where
  mutations : List PluginId
  deriving DecidableEq, Repr

/-- A registered plugin: its identity plus its init behaviour. -/
structure RegisteredPlugin where
  pid : PluginId
  init : AppContext → Except String AppContext

/-- The plugin registration order fixed by the `.plugin(...)` chain in
`lib.rs`. -/
def regIds : List PluginId :=
  [.shell, .process, .dialog, .fs, .http, .updater, .theme]

/-- The builder's accumulated plugin list for given plugin behaviours,
mirroring the `.plugin(...)` chain in `lib.rs`. -/
def registeredPlugins (beh : PluginId → AppContext → Except String AppContext) :
    List RegisteredPlugin :=
  [⟨.shell, beh .shell⟩, ⟨.process, beh .process⟩, ⟨.dialog, beh .dialog⟩,
   ⟨.fs, beh .fs⟩, ⟨.http, beh .http⟩, ⟨.updater, beh .updater⟩,
   ⟨.theme, beh .theme⟩]

/-- Tauri builder plugin phase: initialize the registered plugins in order,
threading the shared context, stopping at the first failure. Returns the
trace of plugins whose init actually ran, and the outcome. -/
def runPlugins (ps : List RegisteredPlugin) (c : AppContext) :
    List PluginId × Except (PluginId × String) AppContext :=
  match ps with
  | [] => ([], .ok c)
  | p :: rest =>
    match p.init c with
    | .ok c2 =>
      let r := runPlugins rest c2
      (p.pid :: r.1, r.2)
    | .error m => ([p.pid], .error (p.pid, m))

/-- Observable steps of the startup sequence. -/
inductive Event
  | configLoaded (dsn : List Char)
  | sentryInit (dsn : List Char) (release : Option String)
  | runInvoked
  | pluginInit (p : PluginId)
  | logInstall
  | eventLoopStart
  | guardDrop
  deriving DecidableEq, Repr

/-- Outcome of the setup hook branch: the diagnostic log plugin was
installed (debug) or the step was skipped (release). -/
inductive SetupState
  | LoggingInstalled
  | LoggingSkipped
  deriving DecidableEq, Repr

/-- Errors `Builder::run` can return to `app_lib::run`'s `.expect`. -/
inductive RunError
  | pluginFail (p : PluginId) (msg : String)
  | setupFail (msg : String)
  | loopFail (msg : String)
  deriving DecidableEq, Repr

/-- Embedding of `app_lib::run` (`lib.rs`): build the plugin chain, run the
setup hook (which installs the log plugin exactly when
`cfg!(debug_assertions)` holds, propagating its failure via `?`), then the
event loop. `logRes` and `loopRes` are the outcomes of the external log
plugin installation and of the runtime's event loop. -/
def appLibRun (debugProfile : Bool)
    (beh : PluginId → AppContext → Except String AppContext)
    (c : AppContext) (logRes : Except String Unit)
    (loopRes : Except String Unit) :
    List Event × Except RunError SetupState :=
  let r := runPlugins (registeredPlugins beh) c
  let pev := r.1.map Event.pluginInit
  match r.2 with
  | .error pm => (Event.runInvoked :: pev, .error (.pluginFail pm.1 pm.2))
  | .ok _ =>
    if debugProfile then
      match logRes with
      | .error m =>
        (Event.runInvoked :: pev ++ [Event.logInstall], .error (.setupFail m))
      | .ok _ =>
        match loopRes with
        | .error m =>
          (Event.runInvoked :: pev ++ [Event.logInstall, Event.eventLoopStart],
           .error (.loopFail m))
        | .ok _ =>
          (Event.runInvoked :: pev ++ [Event.logInstall, Event.eventLoopStart],
           .ok .LoggingInstalled)
    else
      match loopRes with
      | .error m =>
        (Event.runInvoked :: pev ++ [Event.eventLoopStart], .error (.loopFail m))
      | .ok _ =>
        (Event.runInvoked :: pev ++ [Event.eventLoopStart], .ok .LoggingSkipped)

/-- What a whole run of `main` did: the event trace and, when the process
aborted through a panic (`expect`), the panic diagnostic. -/
structure MainOutcome where
  events : List Event
  panicMsg : Option String
  deriving DecidableEq, Repr

/-- The `.expect` message on the missing config key (`main.rs`). -/
def configPanicMsg : String := "SENTRY_TAURI must be set in .env"

/-- The `.expect` message on a `Builder::run` error (`lib.rs`). -/
def runPanicMsg : String := "error while running tauri application"

/-- Embedding of `main` (`main.rs`): extract the DSN from the embedded
config text (panicking if absent), initialize sentry with it and the
build-metadata release name, keep the guard in `_guard`, call
`app_lib::run`, and drop the guard when `main`'s scope ends — which is
also where the unwind of the `.expect` panic drops it, right before the
process exits. -/
def mainRun (cfg : List (List Char)) (releaseName : Option String)
    (debugProfile : Bool)
    (beh : PluginId → AppContext → Except String AppContext)
    (c : AppContext) (logRes : Except String Unit)
    (loopRes : Except String Unit) : MainOutcome :=
  match extractDsn cfg with
  | none => { events := [], panicMsg := some configPanicMsg }
  | some dsn =>
    let r := appLibRun debugProfile beh c logRes loopRes
    { events := Event.configLoaded dsn :: Event.sentryInit dsn releaseName ::
        r.1 ++ [Event.guardDrop],
      panicMsg := match r.2 with
        | .ok _ => none
        | .error _ => some runPanicMsg }

/-- Plugin-init events of a trace, in order. -/
def pluginsOf (ev : List Event) : List PluginId :=
  ev.filterMap (fun e => match e with | .pluginInit p => some p | _ => none)

/-- The behaviour assignment where every plugin init succeeds without
touching the context. -/
def allOk : PluginId → AppContext → Except String AppContext :=
  fun _ c => .ok c

example :
    appLibRun true allOk ⟨[]⟩ (.ok ()) (.ok ()) =
      ([.runInvoked, .pluginInit .shell, .pluginInit .process,
        .pluginInit .dialog, .pluginInit .fs, .pluginInit .http,
        .pluginInit .updater, .pluginInit .theme, .logInstall,
        .eventLoopStart], .ok .LoggingInstalled) := rfl

/-!  Basic facts about the embedded string operations.  -/

theorem splitOnChar_ne_nil (sep : Char) (l : List Char) :
    splitOnChar sep l ≠ [] := by
  induction l with
  | nil => simp [splitOnChar]
  | cons c rest ih =>
    obtain ⟨s, ss, hss⟩ := List.exists_cons_of_ne_nil ih
    by_cases hc : c = sep <;> simp [splitOnChar, hss, hc]

theorem splitOnChar_not_mem {sep : Char} {l : List Char} (h : sep ∉ l) :
    splitOnChar sep l = [l] := by
  induction l with
  | nil => rfl
  | cons c rest ih =>
    have hc : ¬ c = sep := fun e => h (e ▸ List.mem_cons_self c rest)
    have hr : sep ∉ rest := fun e => h (List.mem_cons_of_mem c e)
    simp [splitOnChar, ih hr, hc]

theorem splitOnChar_sep_cons (sep : Char) (l : List Char) :
    splitOnChar sep (sep :: l) = [] :: splitOnChar sep l := by
  obtain ⟨s, ss, hss⟩ := List.exists_cons_of_ne_nil (splitOnChar_ne_nil sep l)
  simp [splitOnChar, hss]

theorem splitOnChar_append {sep : Char} {xs : List Char} (rest : List Char)
    (hx : sep ∉ xs) :
    splitOnChar sep (xs ++ sep :: rest) = xs :: splitOnChar sep rest := by
  induction xs with
  | nil => simpa using splitOnChar_sep_cons sep rest
  | cons x xs ih =>
    have hx1 : ¬ x = sep := fun e => hx (e ▸ List.mem_cons_self x xs)
    have hx2 : sep ∉ xs := fun e => hx (List.mem_cons_of_mem x e)
    simp [splitOnChar, ih hx2, hx1]

theorem sentryPrefix_eq : sentryPrefix = sentryKeyName ++ ['='] := by decide

theorem eq_not_mem_keyName : '=' ∉ sentryKeyName := by decide

/-- On a line `SENTRY_TAURI=<v>` with no further `'='`, Rust's
`split('=').nth(1)` yields exactly `<v>`. -/
theorem nth1_of_line {v : List Char} (hv : '=' ∉ v) :
    (splitOnChar '=' (sentryPrefix ++ v))[1]? = some v := by
  rw [sentryPrefix_eq, List.append_assoc, List.cons_append, List.nil_append,
    splitOnChar_append v eq_not_mem_keyName, splitOnChar_not_mem hv]
  rfl

/-- On a line `SENTRY_TAURI=<v>=<w>` with no `'='` in `<v>`,
`split('=').nth(1)` yields the segment `<v>` between the first and second
`'='`. -/
theorem nth1_of_line_eq {v : List Char} (w : List Char) (hv : '=' ∉ v) :
    (splitOnChar '=' (sentryPrefix ++ (v ++ '=' :: w)))[1]? = some v := by
  rw [sentryPrefix_eq, List.append_assoc, List.cons_append, List.nil_append,
    splitOnChar_append (v ++ '=' :: w) eq_not_mem_keyName,
    splitOnChar_append w hv]
  simp

/-- Any line that passes the `starts_with("SENTRY_TAURI=")` test yields a
value from `split('=').nth(1)`: the line contains a `'='`, so `split`
produces at least two segments. -/
theorem nth1_isSome_of_prefix {l : List Char}
    (hl : sentryPrefix.isPrefixOf l = true) :
    ((splitOnChar '=' l)[1]?).isSome = true := by
  rw [List.isPrefixOf_iff_prefix] at hl
  obtain ⟨t, ht⟩ := hl
  subst ht
  rw [sentryPrefix_eq, List.append_assoc, List.cons_append, List.nil_append,
    splitOnChar_append t eq_not_mem_keyName]
  obtain ⟨s, ss, hss⟩ := List.exists_cons_of_ne_nil (splitOnChar_ne_nil '=' t)
  simp [hss]

theorem find?_first_match {pre : List (List Char)} (post : List (List Char))
    {l : List Char}
    (hpre : ∀ x ∈ pre, sentryPrefix.isPrefixOf x = false)
    (hl : sentryPrefix.isPrefixOf l = true) :
    (pre ++ l :: post).find? (fun line => sentryPrefix.isPrefixOf line) =
      some l := by
  induction pre with
  | nil => exact List.find?_cons_of_pos _ hl
  | cons x pre ih =>
    rw [List.cons_append,
      List.find?_cons_of_neg _ (by simp [hpre x (List.mem_cons_self x pre)])]
    exact ih fun y hy => hpre y (List.mem_cons_of_mem x hy)

theorem isPrefixOf_append_self (xs v : List Char) :
    xs.isPrefixOf (xs ++ v) = true := by
  rw [List.isPrefixOf_iff_prefix]
  exact List.prefix_append _ _

/-- Spec-side definition, written from the claim's words (not from the
code): strip at most one matching pair of surrounding quote characters,
leaving anything else alone. To be compared against what the extraction in
`main.rs` actually does. -/
def stripOneQuotePair (l : List Char) : List Char :=
  if 2 ≤ l.length ∧ l.head? = some '"' ∧ l.getLast? = some '"' then
    (l.drop 1).dropLast
  else l

example : stripOneQuotePair "\"abc\"".toList = "abc".toList := by decide
example : stripOneQuotePair "\"\"a\"\"".toList = "\"a\"".toList := by decide
example : stripOneQuotePair "abc".toList = "abc".toList := by decide

/-- C1, counterexample. The config line `SENTRY_TAURI=""a""`, i.e. the
quoted form `SENTRY_TAURI="value"` with `value = "a"` (quotes included):
stripping the surrounding whitespace and at most one matching quote pair
would give `"a"`, but the extraction (Rust `trim_matches('"')`) strips
every boundary quote and returns `a`. -/
theorem c1_quote_stripping_counterexample :
    extractDsn ["SENTRY_TAURI=\"\"a\"\"".toList] ≠
        some (stripOneQuotePair (trimChars "\"\"a\"\"".toList)) ∧
      extractDsn ["SENTRY_TAURI=\"\"a\"\"".toList] = some ['a'] := by
  exact ⟨by decide, by decide⟩

/-- C1, amended. For a config text whose first `SENTRY_TAURI=` line is
`SENTRY_TAURI=<v>` with no further `'='` in `<v>`, the extraction returns
`<v>` with surrounding whitespace stripped and then *all* leading and
trailing quote characters removed (not at most one matching pair —
repeated and unmatched boundary quotes are removed too). -/
theorem c1_dsn_extraction (pre post : List (List Char)) (v : List Char)
    (hpre : ∀ x ∈ pre, sentryPrefix.isPrefixOf x = false)
    (hv : '=' ∉ v) :
    extractDsn (pre ++ (sentryPrefix ++ v) :: post) =
      some (trimMatchesChar '"' (trimChars v)) := by
  simp [extractDsn, find?_first_match post hpre (isPrefixOf_append_self _ v),
    nth1_of_line hv]

theorem c1_dsn_extraction_witness :
    (∀ x ∈ (["# comment".toList] : List (List Char)),
        sentryPrefix.isPrefixOf x = false) ∧
      '=' ∉ " \"https://o123.ingest.io/42\" ".toList ∧
      extractDsn (["# comment".toList] ++
          (sentryPrefix ++ " \"https://o123.ingest.io/42\" ".toList) ::
            ["TAIL=1".toList]) =
        some (trimMatchesChar '"'
          (trimChars " \"https://o123.ingest.io/42\" ".toList)) :=
  ⟨by decide, by decide,
    c1_dsn_extraction ["# comment".toList] ["TAIL=1".toList] _ (by decide)
      (by decide)⟩

theorem extractDsn_none_of_no_match {cfg : List (List Char)}
    (h : ∀ l ∈ cfg, sentryPrefix.isPrefixOf l = false) :
    extractDsn cfg = none := by
  have hf : cfg.find? (fun line => sentryPrefix.isPrefixOf line) = none :=
    List.find?_eq_none.mpr fun x hx => by simp [h x hx]
  simp [extractDsn, hf]

/-- C2: when no line of the embedded config text starts with
`SENTRY_TAURI=`, `main` panics at the `.expect` with the diagnostic naming
the missing key, the event trace is empty — so no sentry (CrashReporter)
initialization is ever attempted and no substitute value is ever passed on
— and the diagnostic message begins with the key name. -/
theorem c2_missing_key_aborts (cfg : List (List Char)) (rel : Option String)
    (debugProfile : Bool)
    (beh : PluginId → AppContext → Except String AppContext)
    (c : AppContext) (logRes loopRes : Except String Unit)
    (h : ∀ l ∈ cfg, sentryPrefix.isPrefixOf l = false) :
    mainRun cfg rel debugProfile beh c logRes loopRes =
        { events := [], panicMsg := some configPanicMsg } ∧
      (∀ d r, Event.sentryInit d r ∉
        (mainRun cfg rel debugProfile beh c logRes loopRes).events) ∧
      sentryKeyName.isPrefixOf configPanicMsg.toList = true := by
  have hn : extractDsn cfg = none := extractDsn_none_of_no_match h
  refine ⟨by simp [mainRun, hn], ?_, by decide⟩
  intro d r
  simp [mainRun, hn]

theorem c2_missing_key_aborts_witness :
    (∀ l ∈ (["OTHER=1".toList, "".toList] : List (List Char)),
        sentryPrefix.isPrefixOf l = false) ∧
      (mainRun ["OTHER=1".toList, "".toList] none true allOk ⟨[]⟩ (.ok ())
            (.ok ()) =
          { events := [], panicMsg := some configPanicMsg } ∧
        (∀ d r, Event.sentryInit d r ∉
          (mainRun ["OTHER=1".toList, "".toList] none true allOk ⟨[]⟩ (.ok ())
            (.ok ())).events) ∧
        sentryKeyName.isPrefixOf configPanicMsg.toList = true) :=
  ⟨by decide,
    c2_missing_key_aborts ["OTHER=1".toList, "".toList] none true allOk ⟨[]⟩
      (.ok ()) (.ok ()) (by decide)⟩

/-- C9: the extracted secret comes from the first line that starts with
`SENTRY_TAURI=`; everything after that line — in particular any later
matching line — has no effect on the extracted value. -/
theorem c9_first_match_wins (pre post : List (List Char)) (l : List Char)
    (hpre : ∀ x ∈ pre, sentryPrefix.isPrefixOf x = false)
    (hl : sentryPrefix.isPrefixOf l = true) :
    extractDsn (pre ++ l :: post) = extractDsn [l] := by
  have h1 : ([l] : List (List Char)).find?
      (fun line => sentryPrefix.isPrefixOf line) = some l :=
    List.find?_cons_of_pos _ hl
  simp [extractDsn, find?_first_match post hpre hl, h1]

theorem c9_first_match_wins_witness :
    (∀ x ∈ (["A=1".toList] : List (List Char)),
        sentryPrefix.isPrefixOf x = false) ∧
      sentryPrefix.isPrefixOf "SENTRY_TAURI=first".toList = true ∧
      extractDsn (["A=1".toList] ++ "SENTRY_TAURI=first".toList ::
          ["SENTRY_TAURI=second".toList]) =
        extractDsn ["SENTRY_TAURI=first".toList] :=
  ⟨by decide, by decide,
    c9_first_match_wins ["A=1".toList] ["SENTRY_TAURI=second".toList] _
      (by decide) (by decide)⟩

theorem getLast?_cons_of_getLast? {α : Type} {l : List α} {a x : α}
    (h : l.getLast? = some a) : (x :: l).getLast? = some a := by
  cases l with
  | nil => simp at h
  | cons b t => rw [List.getLast?_cons_cons]; exact h

/-- Structure of the plugin phase: the init trace is a prefix of the
registration order; it is the whole registration list when the phase
succeeds; on failure the failing plugin is the last initialized one; the
first plugin always runs. -/
theorem runPlugins_trace_spec (ps : List RegisteredPlugin) (c : AppContext) :
    ∃ k, k ≤ ps.length ∧
      (runPlugins ps c).1 = (ps.map RegisteredPlugin.pid).take k ∧
      (∀ c2, (runPlugins ps c).2 = .ok c2 → k = ps.length) ∧
      (∀ p m, (runPlugins ps c).2 = .error (p, m) →
        (runPlugins ps c).1.getLast? = some p) ∧
      (ps ≠ [] → 1 ≤ k) := by
  induction ps generalizing c with
  | nil => exact ⟨0, by simp [runPlugins]⟩
  | cons p rest ih =>
    cases hi : p.init c with
    | error m =>
      refine ⟨1, by simp, by simp [runPlugins, hi], ?_, ?_, fun _ => le_refl 1⟩
      · intro c2 hc2
        simp [runPlugins, hi] at hc2
      · intro q mq hq
        simp only [runPlugins, hi] at hq ⊢
        cases hq
        rfl
    | ok c2 =>
      obtain ⟨k, hk, htr, hok, herr, _⟩ := ih c2
      refine ⟨k + 1, by simpa using hk, ?_, ?_, ?_, fun _ => by omega⟩
      · simp only [runPlugins, hi, List.map_cons, List.take_succ_cons]
        exact congrArg _ htr
      · intro c3 hc3
        simp only [runPlugins, hi] at hc3
        simp [hok c3 hc3]
      · intro q mq hq
        simp only [runPlugins, hi] at hq ⊢
        exact getLast?_cons_of_getLast? (herr q mq hq)

theorem pluginsOf_nil : pluginsOf [] = [] := rfl

theorem pluginsOf_append (a b : List Event) :
    pluginsOf (a ++ b) = pluginsOf a ++ pluginsOf b :=
  List.filterMap_append a b _

theorem pluginsOf_cons_runInvoked (l : List Event) :
    pluginsOf (Event.runInvoked :: l) = pluginsOf l := rfl

theorem pluginsOf_cons_logInstall (l : List Event) :
    pluginsOf (Event.logInstall :: l) = pluginsOf l := rfl

theorem pluginsOf_cons_eventLoopStart (l : List Event) :
    pluginsOf (Event.eventLoopStart :: l) = pluginsOf l := rfl

theorem pluginsOf_map_pluginInit (tr : List PluginId) :
    pluginsOf (tr.map Event.pluginInit) = tr := by
  induction tr with
  | nil => rfl
  | cons p tr ih => simpa [pluginsOf] using ih

theorem count_map_pluginInit (tr : List PluginId) (e : Event)
    (he : ∀ p, e ≠ Event.pluginInit p) :
    (tr.map Event.pluginInit).count e = 0 := by
  rw [List.count_eq_zero]
  intro hmem
  obtain ⟨p, _, hp⟩ := List.mem_map.mp hmem
  exact he p hp.symm

/-- The plugin-init events of a full `app_lib::run` trace are exactly the
plugin phase's trace, whatever the profile and the later steps do. -/
theorem pluginsOf_appLibRun (debugProfile : Bool)
    (beh : PluginId → AppContext → Except String AppContext) (c : AppContext)
    (logRes loopRes : Except String Unit) :
    pluginsOf (appLibRun debugProfile beh c logRes loopRes).1 =
      (runPlugins (registeredPlugins beh) c).1 := by
  unfold appLibRun
  cases hres : (runPlugins (registeredPlugins beh) c).2 <;>
    cases debugProfile <;> cases logRes <;> cases loopRes <;>
      simp [hres, pluginsOf_append, pluginsOf_cons_runInvoked,
        pluginsOf_cons_logInstall, pluginsOf_cons_eventLoopStart,
        pluginsOf_map_pluginInit, pluginsOf_nil]

/-- `Builder::run` is entered exactly once per startup. -/
theorem appLibRun_count_runInvoked (debugProfile : Bool)
    (beh : PluginId → AppContext → Except String AppContext) (c : AppContext)
    (logRes loopRes : Except String Unit) :
    (appLibRun debugProfile beh c logRes loopRes).1.count .runInvoked = 1 := by
  unfold appLibRun
  cases hres : (runPlugins (registeredPlugins beh) c).2 <;>
    cases debugProfile <;> cases logRes <;> cases loopRes <;>
      simp [hres, count_map_pluginInit _ Event.runInvoked (fun p => by simp),
        List.count_cons, List.count_append]

/-- No step of `app_lib::run` releases the guard: the drop event never
appears inside it. -/
theorem appLibRun_guardDrop_not_mem (debugProfile : Bool)
    (beh : PluginId → AppContext → Except String AppContext) (c : AppContext)
    (logRes loopRes : Except String Unit) :
    Event.guardDrop ∉ (appLibRun debugProfile beh c logRes loopRes).1 := by
  unfold appLibRun
  cases hres : (runPlugins (registeredPlugins beh) c).2 <;>
    cases debugProfile <;> cases logRes <;> cases loopRes <;>
      simp [hres, List.mem_map]

/-- Relating `app_lib::run`'s outcome to the plugin phase's outcome. -/
theorem appLibRun_result_cases (debugProfile : Bool)
    (beh : PluginId → AppContext → Except String AppContext) (c : AppContext)
    (logRes loopRes : Except String Unit) :
    (∀ p m, (appLibRun debugProfile beh c logRes loopRes).2 =
        .error (.pluginFail p m) →
      (runPlugins (registeredPlugins beh) c).2 = .error (p, m)) ∧
    (∀ s, (appLibRun debugProfile beh c logRes loopRes).2 = .ok s →
      ∃ c2, (runPlugins (registeredPlugins beh) c).2 = .ok c2) ∧
    (∀ m, (appLibRun debugProfile beh c logRes loopRes).2 =
        .error (.setupFail m) →
      ∃ c2, (runPlugins (registeredPlugins beh) c).2 = .ok c2) ∧
    (∀ m, (appLibRun debugProfile beh c logRes loopRes).2 =
        .error (.loopFail m) →
      ∃ c2, (runPlugins (registeredPlugins beh) c).2 = .ok c2) := by
  unfold appLibRun
  cases hres : (runPlugins (registeredPlugins beh) c).2 <;>
    cases debugProfile <;> cases logRes <;> cases loopRes <;>
      simp [hres]

/-- C10: on a matching line whose value part contains a further `'='`
(`SENTRY_TAURI=<v>=<w>` with `'='`-free `<v>`), the extraction returns only
the segment `<v>` between the first and the second `'='` of the line
(trimmed, quotes stripped), not the remainder `<v>=<w>`. -/
theorem c10_value_stops_at_second_eq (pre post : List (List Char))
    (v w : List Char)
    (hpre : ∀ x ∈ pre, sentryPrefix.isPrefixOf x = false)
    (hv : '=' ∉ v) :
    extractDsn (pre ++ (sentryPrefix ++ (v ++ '=' :: w)) :: post) =
      some (trimMatchesChar '"' (trimChars v)) := by
  simp [extractDsn,
    find?_first_match post hpre (isPrefixOf_append_self _ (v ++ '=' :: w)),
    nth1_of_line_eq w hv]

theorem c10_value_stops_at_second_eq_witness :
    (∀ x ∈ ([] : List (List Char)), sentryPrefix.isPrefixOf x = false) ∧
      '=' ∉ "a".toList ∧
      extractDsn ([] ++ (sentryPrefix ++ ("a".toList ++ '=' :: "b".toList)) ::
          []) = some (trimMatchesChar '"' (trimChars "a".toList)) ∧
      some (trimMatchesChar '"' (trimChars "a".toList)) ≠
        some "a=b".toList :=
  ⟨by decide, by decide,
    c10_value_stops_at_second_eq [] [] "a".toList "b".toList (by decide)
      (by decide), by decide⟩

/-!  End-to-end scenario and startup-policy claims.  -/

/-- The end-to-end scenario's embedded config text: the one required key,
quoted (`SECRET` of the scenario is the program's required key
`SENTRY_TAURI`). -/
def cfgE2E : List (List Char) :=
  ["SENTRY_TAURI=\"https://ingest.example/123\"".toList]

/-- The end-to-end scenario's run: debug profile, release `app@1.0.0`,
every plugin init and the log install and the event loop succeeding. -/
def e2eOutcome : MainOutcome :=
  mainRun cfgE2E (some "app@1.0.0") true allOk ⟨[]⟩ (.ok ()) (.ok ())

/-- C3, counterexample. In the end-to-end scenario the plugin-init list is
not `[shell, dialog, fs, http, updater, theme]`: `lib.rs` also registers
the `process` plugin, second, so the list initialized is
`[shell, process, dialog, fs, http, updater, theme]`. -/
theorem c3_plugin_list_counterexample :
    pluginsOf e2eOutcome.events ≠
        [.shell, .dialog, .fs, .http, .updater, .theme] ∧
      pluginsOf e2eOutcome.events =
        [.shell, .process, .dialog, .fs, .http, .updater, .theme] :=
  ⟨by decide, by decide⟩

/-- C3, amended. End-to-end success path with config line
`SENTRY_TAURI="https://ingest.example/123"` and release `app@1.0.0`: the
sentry client is initialized exactly once with that destination and
release, the plugins initialized are exactly
`[shell, process, dialog, fs, http, updater, theme]` (registration order,
`process` included) and all succeed, the debug-profile run ends the setup
phase in `LoggingInstalled`, `run` is invoked exactly once, and no panic
occurs. -/
theorem c3_end_to_end :
    e2eOutcome.panicMsg = none ∧
      e2eOutcome.events.count
        (Event.sentryInit "https://ingest.example/123".toList
          (some "app@1.0.0")) = 1 ∧
      pluginsOf e2eOutcome.events =
        [.shell, .process, .dialog, .fs, .http, .updater, .theme] ∧
      (appLibRun true allOk ⟨[]⟩ (.ok ()) (.ok ())).2 =
        .ok .LoggingInstalled ∧
      e2eOutcome.events.count .runInvoked = 1 :=
  ⟨by decide, by decide, by decide, rfl, by decide⟩

/-- C4: in every startup run — whatever the profile and whatever each
plugin's init does — the plugin-init trace is exactly a prefix
`regIds.take k` of the registration order (so initialization order is
registration order), the first plugin always runs (`1 ≤ k`), no plugin's
init ever runs more than once, every plugin in that prefix runs exactly
once, the prefix is the whole list whenever the plugin phase did not
itself fail (success, setup-hook failure, or event-loop failure), and when
a plugin fails it is the last one initialized — so a later plugin's
failure never adds or removes an earlier plugin's single init. -/
theorem c4_plugin_order_and_exactly_once (debugProfile : Bool)
    (beh : PluginId → AppContext → Except String AppContext) (c : AppContext)
    (logRes loopRes : Except String Unit) :
    ∃ k, 1 ≤ k ∧ k ≤ regIds.length ∧
      pluginsOf (appLibRun debugProfile beh c logRes loopRes).1 =
        regIds.take k ∧
      (∀ p, (pluginsOf (appLibRun debugProfile beh c logRes loopRes).1).count
        p ≤ 1) ∧
      (∀ p ∈ regIds.take k,
        (pluginsOf (appLibRun debugProfile beh c logRes loopRes).1).count p =
          1) ∧
      (∀ s, (appLibRun debugProfile beh c logRes loopRes).2 = .ok s →
        k = regIds.length) ∧
      (∀ m, (appLibRun debugProfile beh c logRes loopRes).2 =
          .error (.setupFail m) → k = regIds.length) ∧
      (∀ m, (appLibRun debugProfile beh c logRes loopRes).2 =
          .error (.loopFail m) → k = regIds.length) ∧
      (∀ p m, (appLibRun debugProfile beh c logRes loopRes).2 =
          .error (.pluginFail p m) →
        (pluginsOf
          (appLibRun debugProfile beh c logRes loopRes).1).getLast? =
            some p) := by
  obtain ⟨k, hk, htr, hok, herr, hne⟩ :=
    runPlugins_trace_spec (registeredPlugins beh) c
  obtain ⟨hpf, hoks, hsf, hlf⟩ :=
    appLibRun_result_cases debugProfile beh c logRes loopRes
  have hmap : (registeredPlugins beh).map RegisteredPlugin.pid = regIds := rfl
  have hlen : (registeredPlugins beh).length = regIds.length := rfl
  have hplug := pluginsOf_appLibRun debugProfile beh c logRes loopRes
  rw [hmap] at htr
  have htrace : pluginsOf (appLibRun debugProfile beh c logRes loopRes).1 =
      regIds.take k := hplug.trans htr
  have hnd : (regIds.take k).Nodup :=
    List.Nodup.sublist (List.take_sublist _ _) (by decide)
  refine ⟨k, hne (by simp [registeredPlugins]), hlen ▸ hk, htrace, ?_, ?_,
    ?_, ?_, ?_, ?_⟩
  · intro p
    rw [htrace]
    exact List.nodup_iff_count_le_one.mp hnd p
  · intro p hp
    rw [htrace]
    exact List.count_eq_one_of_mem hnd hp
  · intro s hs
    obtain ⟨c2, hc2⟩ := hoks s hs
    exact hlen ▸ hok c2 hc2
  · intro m hm
    obtain ⟨c2, hc2⟩ := hsf m hm
    exact hlen ▸ hok c2 hc2
  · intro m hm
    obtain ⟨c2, hc2⟩ := hlf m hm
    exact hlen ▸ hok c2 hc2
  · intro p m hm
    rw [hplug]
    exact herr p m (hpf p m hm)

theorem c4_plugin_order_and_exactly_once_witness :
    ∃ k, 1 ≤ k ∧ k ≤ regIds.length ∧
      pluginsOf (appLibRun true allOk ⟨[]⟩ (.ok ()) (.ok ())).1 =
        regIds.take k ∧
      (∀ p, (pluginsOf (appLibRun true allOk ⟨[]⟩ (.ok ()) (.ok ())).1).count
        p ≤ 1) ∧
      (∀ p ∈ regIds.take k,
        (pluginsOf (appLibRun true allOk ⟨[]⟩ (.ok ()) (.ok ())).1).count p =
          1) ∧
      (∀ s, (appLibRun true allOk ⟨[]⟩ (.ok ()) (.ok ())).2 = .ok s →
        k = regIds.length) ∧
      (∀ m, (appLibRun true allOk ⟨[]⟩ (.ok ()) (.ok ())).2 =
          .error (.setupFail m) → k = regIds.length) ∧
      (∀ m, (appLibRun true allOk ⟨[]⟩ (.ok ()) (.ok ())).2 =
          .error (.loopFail m) → k = regIds.length) ∧
      (∀ p m, (appLibRun true allOk ⟨[]⟩ (.ok ()) (.ok ())).2 =
          .error (.pluginFail p m) →
        (pluginsOf
          (appLibRun true allOk ⟨[]⟩ (.ok ()) (.ok ())).1).getLast? =
            some p) :=
  c4_plugin_order_and_exactly_once true allOk ⟨[]⟩ (.ok ()) (.ok ())

/-- C5: given a run whose plugin phase succeeds — so the setup hook is
reached — the diagnostic log plugin is installed iff the profile is debug:
in release the run is entirely independent of the log-install behaviour
and performs zero logging-related calls (no attempt, no error path); in
debug exactly one install call happens, and it is placed after the plugin
inits and strictly before the event loop starts; with everything healthy
the debug run's setup phase ends `LoggingInstalled` and the release run's
ends `LoggingSkipped`. -/
theorem c5_logging_iff_debug
    (beh : PluginId → AppContext → Except String AppContext) (c : AppContext)
    (tr : List PluginId) (c2 : AppContext) (loopRes : Except String Unit)
    (hp : runPlugins (registeredPlugins beh) c = (tr, .ok c2)) :
    (∀ r r', appLibRun false beh c r loopRes =
      appLibRun false beh c r' loopRes) ∧
      (∀ r, (appLibRun false beh c r loopRes).1.count .logInstall = 0) ∧
      (∀ r, (appLibRun true beh c r loopRes).1.count .logInstall = 1) ∧
      (appLibRun true beh c (.ok ()) loopRes).1 =
        .runInvoked :: tr.map Event.pluginInit ++
          [.logInstall, .eventLoopStart] ∧
      (appLibRun true beh c (.ok ()) (.ok ())).2 = .ok .LoggingInstalled ∧
      (appLibRun false beh c (.ok ()) (.ok ())).2 = .ok .LoggingSkipped := by
  refine ⟨?_, ?_, ?_, ?_, ?_, ?_⟩
  · intro r r'
    simp [appLibRun, hp]
  · intro r
    cases loopRes <;>
      simp [appLibRun, hp, List.count_cons, List.count_append,
        count_map_pluginInit _ Event.logInstall (fun p => by simp)]
  · intro r
    cases r <;> cases loopRes <;>
      simp [appLibRun, hp, List.count_cons, List.count_append,
        count_map_pluginInit _ Event.logInstall (fun p => by simp)]
  · cases loopRes <;> simp [appLibRun, hp]
  · simp [appLibRun, hp]
  · simp [appLibRun, hp]

theorem c5_logging_iff_debug_witness :
    runPlugins (registeredPlugins allOk) ⟨[]⟩ = (regIds, .ok ⟨[]⟩) ∧
      ((∀ r r', appLibRun false allOk ⟨[]⟩ r (.ok ()) =
        appLibRun false allOk ⟨[]⟩ r' (.ok ())) ∧
      (∀ r, (appLibRun false allOk ⟨[]⟩ r (.ok ())).1.count .logInstall =
        0) ∧
      (∀ r, (appLibRun true allOk ⟨[]⟩ r (.ok ())).1.count .logInstall =
        1) ∧
      (appLibRun true allOk ⟨[]⟩ (.ok ()) (.ok ())).1 =
        .runInvoked :: regIds.map Event.pluginInit ++
          [.logInstall, .eventLoopStart] ∧
      (appLibRun true allOk ⟨[]⟩ (.ok ()) (.ok ())).2 =
        .ok .LoggingInstalled ∧
      (appLibRun false allOk ⟨[]⟩ (.ok ()) (.ok ())).2 =
        .ok .LoggingSkipped) :=
  ⟨rfl, c5_logging_iff_debug allOk ⟨[]⟩ regIds ⟨[]⟩ (.ok ()) rfl⟩

/-- C6: whenever the config extraction succeeds — i.e. whenever the guard
is constructed at all — the run's trace drops the guard exactly once, that
drop is the very last event of the whole run (after `run` was invoked and
after every event `run` produced, whether the run ended normally or in the
panic that precedes process exit), and `run` was invoked exactly once
before it. -/
theorem c6_guard_retained (cfg : List (List Char)) (rel : Option String)
    (debugProfile : Bool)
    (beh : PluginId → AppContext → Except String AppContext)
    (c : AppContext) (logRes loopRes : Except String Unit) (d : List Char)
    (hd : extractDsn cfg = some d) :
    (mainRun cfg rel debugProfile beh c logRes loopRes).events.count
        .guardDrop = 1 ∧
      (mainRun cfg rel debugProfile beh c logRes loopRes).events.getLast? =
        some .guardDrop ∧
      (mainRun cfg rel debugProfile beh c logRes loopRes).events.count
        .runInvoked = 1 := by
  have hg : (appLibRun debugProfile beh c logRes loopRes).1.count
      Event.guardDrop = 0 :=
    List.count_eq_zero.mpr
      (appLibRun_guardDrop_not_mem debugProfile beh c logRes loopRes)
  have hr := appLibRun_count_runInvoked debugProfile beh c logRes loopRes
  refine ⟨?_, ?_, ?_⟩
  · simp [mainRun, hd, List.count_cons, List.count_append, hg]
  · simp only [mainRun, hd]
    exact getLast?_cons_of_getLast? (getLast?_cons_of_getLast?
      (List.getLast?_concat _))
  · simp [mainRun, hd, List.count_cons, List.count_append, hr]

theorem c6_guard_retained_witness :
    extractDsn ["SENTRY_TAURI=x".toList] = some "x".toList ∧
      ((mainRun ["SENTRY_TAURI=x".toList] none true allOk ⟨[]⟩ (.ok ())
          (.ok ())).events.count .guardDrop = 1 ∧
      (mainRun ["SENTRY_TAURI=x".toList] none true allOk ⟨[]⟩ (.ok ())
        (.ok ())).events.getLast? = some .guardDrop ∧
      (mainRun ["SENTRY_TAURI=x".toList] none true allOk ⟨[]⟩ (.ok ())
        (.ok ())).events.count .runInvoked = 1) :=
  ⟨by decide,
    c6_guard_retained ["SENTRY_TAURI=x".toList] none true allOk ⟨[]⟩
      (.ok ()) (.ok ()) "x".toList (by decide)⟩

/-- C7: in a debug build whose plugin phase succeeded, a failing log-plugin
installation inside the setup hook makes `Builder::run` return a setup
error, the event loop never starts, and `main` dies through the very same
fatal path — the same `.expect` with the same diagnostic — that a plugin
initialization failure dies through, even though the log plugin is not in
the registered plugin list. -/
theorem c7_log_failure_fatal (cfg : List (List Char)) (rel : Option String)
    (beh : PluginId → AppContext → Except String AppContext)
    (c : AppContext) (tr : List PluginId) (c2 : AppContext) (m : String)
    (loopRes : Except String Unit) (d : List Char)
    (hd : extractDsn cfg = some d)
    (hp : runPlugins (registeredPlugins beh) c = (tr, .ok c2)) :
    (appLibRun true beh c (.error m) loopRes).2 = .error (.setupFail m) ∧
      Event.eventLoopStart ∉ (appLibRun true beh c (.error m) loopRes).1 ∧
      (mainRun cfg rel true beh c (.error m) loopRes).panicMsg =
        some runPanicMsg ∧
      (∀ beh2 c3 tr2 p pm logRes2 loopRes2,
        runPlugins (registeredPlugins beh2) c3 = (tr2, .error (p, pm)) →
        (mainRun cfg rel true beh2 c3 logRes2 loopRes2).panicMsg =
          some runPanicMsg) := by
  refine ⟨by simp [appLibRun, hp], ?_, ?_, ?_⟩
  · simp [appLibRun, hp, List.mem_map]
  · simp [mainRun, hd, appLibRun, hp]
  · intro beh2 c3 tr2 p pm logRes2 loopRes2 h2
    simp [mainRun, hd, appLibRun, h2]

theorem c7_log_failure_fatal_witness :
    extractDsn ["SENTRY_TAURI=x".toList] = some "x".toList ∧
      runPlugins (registeredPlugins allOk) ⟨[]⟩ = (regIds, .ok ⟨[]⟩) ∧
      ((appLibRun true allOk ⟨[]⟩ (.error "duplicate logger") (.ok ())).2 =
        .error (.setupFail "duplicate logger") ∧
      Event.eventLoopStart ∉
        (appLibRun true allOk ⟨[]⟩ (.error "duplicate logger") (.ok ())).1 ∧
      (mainRun ["SENTRY_TAURI=x".toList] none true allOk ⟨[]⟩
        (.error "duplicate logger") (.ok ())).panicMsg = some runPanicMsg ∧
      (∀ beh2 c3 tr2 p pm logRes2 loopRes2,
        runPlugins (registeredPlugins beh2) c3 = (tr2, .error (p, pm)) →
        (mainRun ["SENTRY_TAURI=x".toList] none true beh2 c3 logRes2
          loopRes2).panicMsg = some runPanicMsg)) :=
  ⟨by decide, rfl,
    c7_log_failure_fatal ["SENTRY_TAURI=x".toList] none allOk ⟨[]⟩ regIds
      ⟨[]⟩ "duplicate logger" (.ok ()) "x".toList (by decide) rfl⟩

/-- C8: whenever `Builder::run` returns an error — a plugin failure, a
setup-hook failure, or an event-loop failure alike — `main` terminates
through the `.expect` with its diagnostic, having invoked `run` exactly
once: the error is never ignored, downgraded or retried. When `run`
returns no error, no panic occurs — so the diagnostic appears exactly on
errors. -/
theorem c8_run_error_fatal (cfg : List (List Char)) (rel : Option String)
    (debugProfile : Bool)
    (beh : PluginId → AppContext → Except String AppContext)
    (c : AppContext) (logRes loopRes : Except String Unit) (d : List Char)
    (err : RunError)
    (hd : extractDsn cfg = some d)
    (he : (appLibRun debugProfile beh c logRes loopRes).2 = .error err) :
    (mainRun cfg rel debugProfile beh c logRes loopRes).panicMsg =
        some runPanicMsg ∧
      (mainRun cfg rel debugProfile beh c logRes loopRes).events.count
        .runInvoked = 1 := by
  have hr := appLibRun_count_runInvoked debugProfile beh c logRes loopRes
  constructor
  · simp [mainRun, hd, he]
  · simp [mainRun, hd, List.count_cons, List.count_append, hr]

theorem c8_run_error_fatal_witness :
    extractDsn ["SENTRY_TAURI=x".toList] = some "x".toList ∧
      (appLibRun false allOk ⟨[]⟩ (.ok ()) (.error "gpu lost")).2 =
        .error (.loopFail "gpu lost") ∧
      ((mainRun ["SENTRY_TAURI=x".toList] none false allOk ⟨[]⟩ (.ok ())
        (.error "gpu lost")).panicMsg = some runPanicMsg ∧
      (mainRun ["SENTRY_TAURI=x".toList] none false allOk ⟨[]⟩ (.ok ())
        (.error "gpu lost")).events.count .runInvoked = 1) :=
  ⟨by decide, rfl,
    c8_run_error_fatal ["SENTRY_TAURI=x".toList] none false allOk ⟨[]⟩
      (.ok ()) (.error "gpu lost") "x".toList (.loopFail "gpu lost")
      (by decide) rfl⟩
